import Mathlib

/-!
Shallow embedding of the Robstride motor-control scripts.

Physical quantities (Python floats) are modelled as rationals; Python
integers are modelled as ℤ (or ℕ where the source value is known to be a
bit pattern).  The Python int() conversion truncates toward zero, modelled
by ratTrunc.  CAN frames are modelled as an arbitration id together with
a list of payload bytes.
-/

namespace Robstride

/-- Truncation toward zero of a rational number: the behaviour of
the Python int() conversion applied to a float. -/
def ratTrunc (q : ℚ) : ℤ := if 0 ≤ q then ⌊q⌋ else ⌈q⌉

/-- np.clip(value, lo, hi), which computes min(hi, max(value, lo)). -/
def clip (value lo hi : ℚ) : ℚ := min hi (max value lo)

/-- scale_value_to_u16 from fast.py line 43 and mit.py lines 60-63:
int(65535.0 * (np.clip(value, v_min, v_max) - v_min) / (v_max - v_min)). -/
def scale_value_to_u16 (value v_min v_max : ℚ) : ℤ :=
  ratTrunc (65535 * (clip value v_min v_max - v_min) / (v_max - v_min))

/-- scale_value_to_u16 as actually executed by Python: when
v_max - v_min is zero the division produces inf or nan and the int()
conversion raises at call time; the error is modelled as none. -/
def scale_value_to_u16_checked (value v_min v_max : ℚ) : Option ℤ :=
  if v_max - v_min = 0 then none
  else some (scale_value_to_u16 value v_min v_max)

/-- unscale_u16_to_float from fast.py line 46:
(float(val_u16) / 65535.0) * (v_max - v_min) + v_min. -/
def unscale_u16_to_float (val_u16 : ℤ) (v_min v_max : ℚ) : ℚ :=
  ((val_u16 : ℚ) / 65535) * (v_max - v_min) + v_min

/-- One motor-type scaling table (an entry of MOTOR_TYPE_PARAMS). -/
structure MotorParams where
  P_MIN : ℚ
  P_MAX : ℚ
  V_MIN : ℚ
  V_MAX : ℚ
  T_MIN : ℚ
  T_MAX : ℚ
  KP_MIN : ℚ
  KP_MAX : ℚ
  KD_MIN : ℚ
  KD_MAX : ℚ
deriving DecidableEq

/-- Construction of a motor-type profile as the source performs it: a
plain dictionary literal, with no validation of the ranges. -/
def mkMotorParams (pmin pmax vmin vmax tmin tmax kpmin kpmax kdmin kdmax : ℚ) :
    MotorParams :=
  { P_MIN := pmin, P_MAX := pmax, V_MIN := vmin, V_MAX := vmax,
    T_MIN := tmin, T_MAX := tmax, KP_MIN := kpmin, KP_MAX := kpmax,
    KD_MIN := kdmin, KD_MAX := kdmax }

/-- MOTOR_TYPE_PARAMS entry for the Robstride O2 (fast.py line 34). -/
def paramsO2 : MotorParams :=
  mkMotorParams (-12.57) 12.57 (-44) 44 (-17) 17 0 500 0 5

/-- MOTOR_TYPE_PARAMS entry for the Robstride O3 (fast.py line 35). -/
def paramsO3 : MotorParams :=
  mkMotorParams (-12.57) 12.57 (-20) 20 (-60) 60 0 5000 0 100

/-- MOTOR_TYPE_PARAMS entry for the Robstride O5 (fast.py line 36). -/
def paramsO5 : MotorParams :=
  mkMotorParams (-12.57) 12.57 (-50) 50 (-5.5) 5.5 0 500 0 5

/-- Protocol constant MUX_ENABLE = 0x03. -/
def MUX_ENABLE : ℕ := 0x03

/-- Protocol constant MUX_CONTROL = 0x01. -/
def MUX_CONTROL : ℕ := 0x01

/-- Protocol constant MUX_DISABLE = 0x04. -/
def MUX_DISABLE : ℕ := 0x04

/-- Host identifier constant HOST_ID = 0xFD. -/
def HOST_ID : ℕ := 0xFD

/-- The Python bitwise and of an arbitrary int with 0xFFFF: arbitrary-
precision twos-complement, equal to the Euclidean remainder mod 2^16. -/
def pyAnd16 (n : ℤ) : ℕ := (Int.emod n 65536).toNat

/-- struct.pack of one big-endian unsigned 16-bit field: the two bytes
of a value already known to lie in [0, 65535]. -/
def packBE16 (n : ℤ) : List ℕ := [n.toNat / 256 % 256, n.toNat % 256]

/-- send_control_command from fast.py lines 49-62 and mit.py lines 66-88,
as the pure frame it hands to bus.send: the arbitration id and the
8-byte big-endian payload struct.pack of the fields angle, vel, kp, kd as four big-endian u16. -/
def send_control_command (motor_id : ℕ) (pos vel kp kd torque : ℚ)
    (params : MotorParams) : ℕ × List ℕ :=
  let angle_u16 := scale_value_to_u16 pos params.P_MIN params.P_MAX
  let vel_u16 := scale_value_to_u16 vel params.V_MIN params.V_MAX
  let kp_u16 := scale_value_to_u16 kp params.KP_MIN params.KP_MAX
  let kd_u16 := scale_value_to_u16 kd params.KD_MIN params.KD_MAX
  let torque_u16 := scale_value_to_u16 torque params.T_MIN params.T_MAX
  let mux_part := (MUX_CONTROL &&& 0xFF) <<< 24
  let torque_part := pyAnd16 torque_u16 <<< 8
  let id_part := motor_id &&& 0xFF
  let arbitration_id := mux_part ||| torque_part ||| id_part
  let data := packBE16 angle_u16 ++ packBE16 vel_u16 ++
              packBE16 kp_u16 ++ packBE16 kd_u16
  (arbitration_id, data)

/-- An inbound CAN message as read_feedback sees it: arbitration id,
payload bytes, and the hardware error-frame flag. -/
structure CanMsg where
  arbitration_id : ℕ
  data : List ℕ
  is_error_frame : Bool
deriving DecidableEq

/-- The mutable feedback dictionary current_motor_state from fast.py
line 40: position, velocity and the wall-clock time of the last update. -/
structure MotorState where
  pos : ℚ
  vel : ℚ
  last_update : ℚ
deriving DecidableEq

/-- struct.unpack of one big-endian u16 from a two-byte slice: succeeds only when
the slice holds exactly two bytes, otherwise struct raises (none). -/
def unpackBE16 : List ℕ → Option ℕ
  | [a, b] => some (a * 256 + b)
  | _ => none

/-- Identity extraction of read_feedback (fast.py lines 71-73): take
bits 8-15 of the arbitration id; if that is not the expected id, fall
back to the low 8 bits. -/
def extract_motor_id (expected arb : ℕ) : ℕ :=
  let first := (arb &&& 0xFF00) >>> 8
  if first ≠ expected then arb &&& 0xFF else first

/-- Processing of one received message inside read_feedback (fast.py
lines 64-85): error frames are skipped; then the identity is extracted;
on a match the first two payload bytes decode to position and the next
two to velocity, and the whole state is rewritten; a struct.unpack
failure (short payload) is swallowed by the bare except, leaving the
state untouched. -/
def read_feedback_step (expected : ℕ) (params : MotorParams) (now : ℚ)
    (st : MotorState) (msg : CanMsg) : MotorState :=
  if msg.is_error_frame then st
  else if extract_motor_id expected msg.arbitration_id = expected then
    match unpackBE16 (msg.data.take 2), unpackBE16 ((msg.data.drop 2).take 2) with
    | some p_raw, some v_raw =>
        { pos := unscale_u16_to_float p_raw params.P_MIN params.P_MAX,
          vel := unscale_u16_to_float v_raw params.V_MIN params.V_MAX,
          last_update := now }
    | _, _ => st
  else st

/-- read_feedback drains every queued message, folding each through
read_feedback_step. -/
def read_feedback (expected : ℕ) (params : MotorParams) (now : ℚ)
    (st : MotorState) (queue : List CanMsg) : MotorState :=
  queue.foldl (read_feedback_step expected params now) st

/-- Result of one call to the underlying parameter primitive
(client.read_param or client.write_param): a value, or a raised
exception. -/
inductive PrimResult where
  | ok (v : ℚ)
  | err
deriving DecidableEq

/-- The retry loop of safe_read_param (findangles.py lines 33-41),
indexed by the current attempt number and the remaining attempts.
Returns the value obtained (none models the final `return None`)
together with the number of failed attempts reported by the
per-attempt [ERROR] log line. -/
def safe_read_param_aux (prim : ℕ → PrimResult) : ℕ → ℕ → Option ℚ × ℕ
  | _, 0 => (none, 0)
  | attempt, n + 1 =>
    match prim attempt with
    | PrimResult.ok v => (some v, 0)
    | PrimResult.err =>
        let r := safe_read_param_aux prim (attempt + 1) n
        (r.1, r.2 + 1)

/-- safe_read_param from findangles.py lines 33-41: up to retries
attempts, each preceded by a flush, each exception caught and logged;
returns None after exhausting the retries. -/
def safe_read_param (prim : ℕ → PrimResult) (retries : ℕ) : Option ℚ × ℕ :=
  safe_read_param_aux prim 0 retries

/-- The retry loop of safe_write_param (findangles.py lines 23-31):
true when some attempt succeeded, together with the number of failed
attempts reported. -/
def safe_write_param_aux (prim : ℕ → PrimResult) : ℕ → ℕ → Bool × ℕ
  | _, 0 => (false, 0)
  | attempt, n + 1 =>
    match prim attempt with
    | PrimResult.ok _ => (true, 0)
    | PrimResult.err =>
        let r := safe_write_param_aux prim (attempt + 1) n
        (r.1, r.2 + 1)

/-- safe_write_param from findangles.py lines 23-31. -/
def safe_write_param (prim : ℕ → PrimResult) (retries : ℕ) : Bool × ℕ :=
  safe_write_param_aux prim 0 retries

/-- flush_bus, parameterised by the timeout passed to bus.recv: loops
until recv returns None, consuming the whole queue.  Returns the list
of timeouts used by the successive recv calls (one per drained message
plus the final empty read) and the queue left behind. -/
def flush_bus (t : ℚ) : List CanMsg → List ℚ × List CanMsg
  | [] => ([t], [])
  | _ :: rest =>
      let r := flush_bus t rest
      (t :: r.1, r.2)

/-- Timeout passed to bus.recv by flush_bus in findangles.py line 19. -/
def FLUSH_TIMEOUT_FINDANGLES : ℚ := 0.01

/-- Timeout passed to bus.recv by flush_bus in findmotorid.py line 11. -/
def FLUSH_TIMEOUT_FINDMOTORID : ℚ := 0

/-- Timeout passed to bus.recv by flush_bus in setpermzeros.py line 18. -/
def FLUSH_TIMEOUT_SETPERMZEROS : ℚ := 0

/-- Observable events of the safe_read_param / safe_write_param retry
loop: a bus flush, or one attempt at the underlying primitive. -/
inductive ParamEvent where
  | flushEv
  | attemptEv (i : ℕ)
deriving DecidableEq

/-- Event trace of the retry loop of safe_read_param and
safe_write_param: each iteration flushes the bus and then performs one
attempt; the loop stops after the first successful attempt or after the
remaining attempt budget is exhausted. -/
def param_attempt_events (ok : ℕ → Bool) : ℕ → ℕ → List ParamEvent
  | _, 0 => []
  | attempt, n + 1 =>
      ParamEvent.flushEv :: ParamEvent.attemptEv attempt ::
        (if ok attempt then [] else param_attempt_events ok (attempt + 1) n)

/-- Checks that in an event trace every attempt is immediately preceded
by a flush. -/
def attempts_flushed : List ParamEvent → Bool
  | [] => true
  | ParamEvent.attemptEv _ :: _ => false
  | ParamEvent.flushEv :: ParamEvent.attemptEv _ :: rest => attempts_flushed rest
  | ParamEvent.flushEv :: rest => attempts_flushed rest

/-- Bus-level actions of the main control script (fast.py lines 87-146),
in the order they are handed to the bus. -/
inductive BusAction where
  | sendEnable
  | sendControl (tick : ℕ)
  | sendDisable
  | settle
  | shutdown
deriving DecidableEq

/-- The 1 kHz while-loop body of fast.py lines 105-136, as the trace of
control frames it sends.  cancel_budget counts the ticks until the
operator KeyboardInterrupt arrives; fault_at is the tick (if any)
whose bus.send raises an unexpected exception.  Either exit transfers
control to the corresponding except clause and then to the finally
block. -/
def control_loop_body (fault_at : Option ℕ) : ℕ → ℕ → List BusAction
  | _, 0 => []
  | tick, n + 1 =>
      if fault_at = some tick then []
      else BusAction.sendControl tick :: control_loop_body fault_at (tick + 1) n

/-- The whole __main__ block of fast.py: enable and settle inside the
try, then the loop, and on any exit path the finally block sends one
disable frame, settles, and shuts the bus down. -/
def control_main (cancel_budget : ℕ) (fault_at : Option ℕ) : List BusAction :=
  BusAction.sendEnable :: BusAction.settle ::
    control_loop_body fault_at 0 cancel_budget ++
    [BusAction.sendDisable, BusAction.settle, BusAction.shutdown]

/-- All five ranges of a motor-type profile are well formed (MIN < MAX). -/
def rangesOk (p : MotorParams) : Bool :=
  decide (p.P_MIN < p.P_MAX) && decide (p.V_MIN < p.V_MAX) &&
  decide (p.T_MIN < p.T_MAX) && decide (p.KP_MIN < p.KP_MAX) &&
  decide (p.KD_MIN < p.KD_MAX)

/-! Helper lemmas about the unit codec. -/

theorem ratTrunc_eq_floor (q : ℚ) (h : 0 ≤ q) : ratTrunc q = ⌊q⌋ := by
  unfold ratTrunc
  exact if_pos h

theorem clip_eq_self (v lo hi : ℚ) (h1 : lo ≤ v) (h2 : v ≤ hi) :
    clip v lo hi = v := by
  unfold clip
  rw [max_eq_left h1, min_eq_right h2]

theorem le_clip (v lo hi : ℚ) (h : lo ≤ hi) : lo ≤ clip v lo hi := by
  unfold clip
  exact le_min h (le_max_right v lo)

theorem clip_le (v lo hi : ℚ) : clip v lo hi ≤ hi := min_le_left _ _

theorem scale_ratio_nonneg (v lo hi : ℚ) (h : lo < hi) :
    0 ≤ 65535 * (clip v lo hi - lo) / (hi - lo) := by
  apply div_nonneg
  · have := le_clip v lo hi (le_of_lt h)
    nlinarith
  · linarith

theorem scale_ratio_le (v lo hi : ℚ) (h : lo < hi) :
    65535 * (clip v lo hi - lo) / (hi - lo) ≤ 65535 := by
  rw [div_le_iff₀ (by linarith : (0:ℚ) < hi - lo)]
  have := clip_le v lo hi
  nlinarith

theorem scale_value_to_u16_nonneg (v lo hi : ℚ) (h : lo < hi) :
    0 ≤ scale_value_to_u16 v lo hi := by
  unfold scale_value_to_u16
  rw [ratTrunc_eq_floor _ (scale_ratio_nonneg v lo hi h)]
  exact Int.floor_nonneg.mpr (scale_ratio_nonneg v lo hi h)

theorem scale_value_to_u16_le (v lo hi : ℚ) (h : lo < hi) :
    scale_value_to_u16 v lo hi ≤ 65535 := by
  unfold scale_value_to_u16
  rw [ratTrunc_eq_floor _ (scale_ratio_nonneg v lo hi h)]
  have hf := Int.floor_le_floor (scale_ratio_le v lo hi h)
  norm_num at hf
  exact hf

/-- C1: for every range with min < max and every value v, encode is the
truncation toward zero of 65535 * (clamp(v) - min) / (max - min); encode
at min yields 0 and encode at max yields 65535. -/
theorem C1_encode_affine_truncation (lo hi v : ℚ) (h : lo < hi) :
    scale_value_to_u16 v lo hi =
      ratTrunc (65535 * (clip v lo hi - lo) / (hi - lo)) ∧
    scale_value_to_u16 lo lo hi = 0 ∧
    scale_value_to_u16 hi lo hi = 65535 := by
  refine ⟨rfl, ?_, ?_⟩
  · unfold scale_value_to_u16
    rw [clip_eq_self lo lo hi le_rfl (le_of_lt h)]
    simp [ratTrunc]
  · unfold scale_value_to_u16
    rw [clip_eq_self hi lo hi (le_of_lt h) le_rfl]
    rw [mul_div_assoc, div_self (by linarith : hi - lo ≠ 0), mul_one]
    rw [ratTrunc_eq_floor _ (by norm_num)]
    norm_num

/-- C1 witness at the concrete range [0, 1]. -/
theorem C1_encode_affine_truncation_witness :
    (0 : ℚ) < 1 ∧ scale_value_to_u16 0 0 1 = 0 ∧ scale_value_to_u16 1 0 1 = 65535 := by
  have h := C1_encode_affine_truncation 0 1 0 (by norm_num)
  exact ⟨by norm_num, h.2.1, h.2.2⟩

/-- C9: for every range with min < max and every value v, the encoded
value lies in [0, 65535], so the Python mask with 0xFFFF (modelled by
pyAnd16) leaves it unchanged. -/
theorem C9_encode_fits_u16 (lo hi v : ℚ) (h : lo < hi) :
    0 ≤ scale_value_to_u16 v lo hi ∧
    scale_value_to_u16 v lo hi ≤ 65535 ∧
    (pyAnd16 (scale_value_to_u16 v lo hi) : ℤ) = scale_value_to_u16 v lo hi := by
  have h0 := scale_value_to_u16_nonneg v lo hi h
  have h1 := scale_value_to_u16_le v lo hi h
  refine ⟨h0, h1, ?_⟩
  unfold pyAnd16
  rw [show (scale_value_to_u16 v lo hi).emod 65536 = scale_value_to_u16 v lo hi from
        Int.emod_eq_of_lt h0 (by omega)]
  exact Int.toNat_of_nonneg h0

/-- C9 witness at the concrete range [0, 1] and value 2 (out of range). -/
theorem C9_encode_fits_u16_witness :
    (0 : ℚ) < 1 ∧ 0 ≤ scale_value_to_u16 2 0 1 ∧ scale_value_to_u16 2 0 1 ≤ 65535 := by
  have h := C9_encode_fits_u16 0 1 2 (by norm_num)
  exact ⟨by norm_num, h.1, h.2.1⟩

/-- C7: for every range with min < max and every in-range value v, the
decode of the encode of v differs from v by at most one quantization
step (max - min) / 65535. -/
theorem C7_roundtrip_quantization (lo hi v : ℚ) (h : lo < hi)
    (h1 : lo ≤ v) (h2 : v ≤ hi) :
    |unscale_u16_to_float (scale_value_to_u16 v lo hi) lo hi - v| ≤
      (hi - lo) / 65535 := by
  have hd : (0 : ℚ) < hi - lo := by linarith
  have hdne : hi - lo ≠ 0 := ne_of_gt hd
  set q : ℚ := 65535 * (v - lo) / (hi - lo) with hq
  have hq0 : 0 ≤ q := by
    rw [hq]
    apply div_nonneg (by nlinarith) (le_of_lt hd)
  have hs : scale_value_to_u16 v lo hi = ⌊q⌋ := by
    unfold scale_value_to_u16
    rw [clip_eq_self v lo hi h1 h2, ← hq, ratTrunc_eq_floor _ hq0]
  rw [hs]
  have hexp : unscale_u16_to_float ⌊q⌋ lo hi - v =
      ((⌊q⌋ : ℚ) - q) * ((hi - lo) / 65535) := by
    unfold unscale_u16_to_float
    rw [hq]
    field_simp
    ring
  rw [hexp, abs_mul, abs_of_pos (by positivity : (0:ℚ) < (hi - lo) / 65535)]
  have hfl : |(⌊q⌋ : ℚ) - q| ≤ 1 := by
    rw [abs_le]
    constructor
    · have := Int.sub_one_lt_floor q
      linarith
    · have := Int.floor_le q
      linarith
  calc |(⌊q⌋ : ℚ) - q| * ((hi - lo) / 65535)
      ≤ 1 * ((hi - lo) / 65535) :=
        mul_le_mul_of_nonneg_right hfl (by positivity)
    _ = (hi - lo) / 65535 := one_mul _

/-- C7 witness at the concrete range [0, 1] and value 1/2. -/
theorem C7_roundtrip_quantization_witness :
    (0 : ℚ) < 1 ∧
    |unscale_u16_to_float (scale_value_to_u16 (1/2) 0 1) 0 1 - 1/2| ≤
      ((1 : ℚ) - 0) / 65535 := by
  have h := C7_roundtrip_quantization 0 1 (1/2) (by norm_num) (by norm_num) (by norm_num)
  refine ⟨by norm_num, ?_⟩
  simpa using h

/-- A scaling profile whose every range is [0, 65535], under which the
encoder is the identity on integers 0..65535; used to exhibit a control
frame with a prescribed raw torque. -/
def rawRange : MotorParams :=
  mkMotorParams 0 65535 0 65535 0 65535 0 65535 0 65535

theorem ratTrunc_natCast (n : ℕ) : ratTrunc (n : ℚ) = n := by
  rw [ratTrunc_eq_floor _ (by positivity), Int.floor_natCast]

theorem scale_value_to_u16_4660 : scale_value_to_u16 4660 0 65535 = 4660 := by
  unfold scale_value_to_u16
  rw [clip_eq_self _ _ _ (by norm_num) (by norm_num)]
  rw [show (65535 : ℚ) * (4660 - 0) / (65535 - 0) = ((4660 : ℕ) : ℚ) by norm_num]
  rw [ratTrunc_natCast]
  rfl

/-- C2: the control frame has arbitration id
(CONTROL_MUX shifted left 24) or (masked encoded torque shifted left 8)
or (masked motor id), and its payload is the four big-endian 16-bit
fields position, velocity, position gain, velocity gain in that order;
at motor id 5 and raw torque 0x1234 the arbitration id is 0x01123405. -/
theorem C2_control_frame (motor_id : ℕ) (pos vel kp kd torque : ℚ)
    (p : MotorParams) (hT : p.T_MIN < p.T_MAX) :
    (send_control_command motor_id pos vel kp kd torque p).1 =
      (MUX_CONTROL <<< 24) |||
        (((scale_value_to_u16 torque p.T_MIN p.T_MAX).toNat &&& 0xFFFF) <<< 8) |||
        (motor_id &&& 0xFF) ∧
    (send_control_command motor_id pos vel kp kd torque p).2 =
      packBE16 (scale_value_to_u16 pos p.P_MIN p.P_MAX) ++
        packBE16 (scale_value_to_u16 vel p.V_MIN p.V_MAX) ++
        packBE16 (scale_value_to_u16 kp p.KP_MIN p.KP_MAX) ++
        packBE16 (scale_value_to_u16 kd p.KD_MIN p.KD_MAX) ∧
    (send_control_command 5 0 0 0 0 4660 rawRange).1 = 0x01123405 := by
  have h0 := scale_value_to_u16_nonneg torque p.T_MIN p.T_MAX hT
  have h1 := scale_value_to_u16_le torque p.T_MIN p.T_MAX hT
  have hmask : pyAnd16 (scale_value_to_u16 torque p.T_MIN p.T_MAX) =
      (scale_value_to_u16 torque p.T_MIN p.T_MAX).toNat &&& 0xFFFF := by
    unfold pyAnd16
    rw [show (scale_value_to_u16 torque p.T_MIN p.T_MAX).emod 65536 =
          scale_value_to_u16 torque p.T_MIN p.T_MAX from
        Int.emod_eq_of_lt h0 (by omega)]
    rw [show (0xFFFF : ℕ) = 2 ^ 16 - 1 from rfl]
    rw [Nat.and_pow_two_sub_one_eq_mod]
    rw [Nat.mod_eq_of_lt (by omega)]
  refine ⟨?_, rfl, ?_⟩
  · rw [show (send_control_command motor_id pos vel kp kd torque p).1 =
        ((MUX_CONTROL &&& 0xFF) <<< 24) |||
          (pyAnd16 (scale_value_to_u16 torque p.T_MIN p.T_MAX) <<< 8) |||
          (motor_id &&& 0xFF) from rfl]
    rw [hmask, show MUX_CONTROL &&& 0xFF = MUX_CONTROL from by decide]
  · rw [show (send_control_command 5 0 0 0 0 4660 rawRange).1 =
        ((MUX_CONTROL &&& 0xFF) <<< 24) |||
          (pyAnd16 (scale_value_to_u16 4660 0 65535) <<< 8) |||
          (5 &&& 0xFF) from rfl]
    rw [scale_value_to_u16_4660]
    decide

/-- C2 witness with the O2 torque range. -/
theorem C2_control_frame_witness :
    paramsO2.T_MIN < paramsO2.T_MAX ∧
    (send_control_command 5 0 0 0 0 4660 rawRange).1 = 0x01123405 := by
  have h : paramsO2.T_MIN < paramsO2.T_MAX := by
    norm_num [paramsO2, mkMotorParams]
  exact ⟨h, (C2_control_frame 1 0 0 0 0 0 paramsO2 h).2.2⟩

theorem checked_eq_some (v lo hi : ℚ) (h : lo < hi) :
    scale_value_to_u16_checked v lo hi = some (scale_value_to_u16 v lo hi) := by
  unfold scale_value_to_u16_checked
  rw [if_neg (sub_ne_zero.mpr (ne_of_gt h))]

/-- C8 counterexample: constructing a profile whose ranges are all
degenerate succeeds (the source performs no validation at construction),
and the codec call on that profile is the point that fails: the checked
encoder returns the error value at call time. -/
theorem C8_counterexample_no_construction_check :
    (mkMotorParams 0 0 0 0 0 0 0 0 0 0).P_MIN =
      (mkMotorParams 0 0 0 0 0 0 0 0 0 0).P_MAX ∧
    scale_value_to_u16_checked 1 (mkMotorParams 0 0 0 0 0 0 0 0 0 0).P_MIN
      (mkMotorParams 0 0 0 0 0 0 0 0 0 0).P_MAX = none := by
  refine ⟨rfl, ?_⟩
  simp [scale_value_to_u16_checked, mkMotorParams]

/-- C8 amended: the source has no construction-time range validation
(a degenerate range would fail only at codec call time), but every
profile actually present in MOTOR_TYPE_PARAMS satisfies MIN < MAX on
all five ranges, so codec calls on registry profiles never divide by
zero. -/
theorem C8_registry_ranges_nondegenerate (p : MotorParams) (v : ℚ)
    (hp : p = paramsO2 ∨ p = paramsO3 ∨ p = paramsO5) :
    rangesOk p = true ∧
    scale_value_to_u16_checked v p.P_MIN p.P_MAX =
      some (scale_value_to_u16 v p.P_MIN p.P_MAX) ∧
    scale_value_to_u16_checked v p.V_MIN p.V_MAX =
      some (scale_value_to_u16 v p.V_MIN p.V_MAX) ∧
    scale_value_to_u16_checked v p.T_MIN p.T_MAX =
      some (scale_value_to_u16 v p.T_MIN p.T_MAX) ∧
    scale_value_to_u16_checked v p.KP_MIN p.KP_MAX =
      some (scale_value_to_u16 v p.KP_MIN p.KP_MAX) ∧
    scale_value_to_u16_checked v p.KD_MIN p.KD_MAX =
      some (scale_value_to_u16 v p.KD_MIN p.KD_MAX) := by
  rcases hp with h | h | h <;> subst h <;>
    refine ⟨by norm_num [rangesOk, paramsO2, paramsO3, paramsO5, mkMotorParams],
      ?_, ?_, ?_, ?_, ?_⟩ <;>
    apply checked_eq_some <;>
    norm_num [paramsO2, paramsO3, paramsO5, mkMotorParams]

/-- C8 witness at the O2 profile and value 0. -/
theorem C8_registry_ranges_nondegenerate_witness :
    (paramsO2 = paramsO2 ∨ paramsO2 = paramsO3 ∨ paramsO2 = paramsO5) ∧
    rangesOk paramsO2 = true := by
  exact ⟨Or.inl rfl,
    (C8_registry_ranges_nondegenerate paramsO2 0 (Or.inl rfl)).1⟩

theorem unpackBE16_eq_none (l : List ℕ) (h : l.length ≠ 2) :
    unpackBE16 l = none := by
  match l, h with
  | [], _ => rfl
  | [a], _ => rfl
  | [a, b], h => exact absurd rfl h
  | a :: b :: c :: rest, _ => rfl

/-- C3: the parser discards error frames before any identity check;
it takes the identity from bits 8-15 of the arbitration id, falling back
to the low 8 bits only when bits 8-15 do not match; when neither
location matches, the frame is ignored without error and without any
state change; on a match, bytes 0-1 decode to position and bytes 2-3 to
velocity as big-endian unsigned 16-bit values. -/
theorem C3_feedback_parse (expected : ℕ) (params : MotorParams) (now : ℚ)
    (st : MotorState) (msg : CanMsg) :
    (msg.is_error_frame = true →
      read_feedback_step expected params now st msg = st) ∧
    ((msg.arbitration_id &&& 0xFF00) >>> 8 ≠ expected ∧
        msg.arbitration_id &&& 0xFF ≠ expected →
      read_feedback_step expected params now st msg = st) ∧
    (msg.is_error_frame = false →
      (msg.arbitration_id &&& 0xFF00) >>> 8 = expected →
      ∀ b0 b1 b2 b3 rest, msg.data = b0 :: b1 :: b2 :: b3 :: rest →
        read_feedback_step expected params now st msg =
          { pos := unscale_u16_to_float (b0 * 256 + b1) params.P_MIN params.P_MAX,
            vel := unscale_u16_to_float (b2 * 256 + b3) params.V_MIN params.V_MAX,
            last_update := now }) ∧
    (msg.is_error_frame = false →
      (msg.arbitration_id &&& 0xFF00) >>> 8 ≠ expected →
      msg.arbitration_id &&& 0xFF = expected →
      ∀ b0 b1 b2 b3 rest, msg.data = b0 :: b1 :: b2 :: b3 :: rest →
        read_feedback_step expected params now st msg =
          { pos := unscale_u16_to_float (b0 * 256 + b1) params.P_MIN params.P_MAX,
            vel := unscale_u16_to_float (b2 * 256 + b3) params.V_MIN params.V_MAX,
            last_update := now }) := by
  refine ⟨?_, ?_, ?_, ?_⟩
  · intro h
    simp [read_feedback_step, h]
  · rintro ⟨h1, h2⟩
    by_cases he : msg.is_error_frame
    · simp [read_feedback_step, he]
    · simp [read_feedback_step, extract_motor_id, he, h1, h2]
  · intro he h b0 b1 b2 b3 rest hdata
    simp [read_feedback_step, extract_motor_id, he, h, hdata, unpackBE16]
  · intro he h1 h2 b0 b1 b2 b3 rest hdata
    simp [read_feedback_step, extract_motor_id, he, h1, h2, hdata, unpackBE16]

/-- C3 witness: identity in bits 8-15, payload bytes [0, 1, 0, 2]. -/
theorem C3_feedback_parse_witness :
    read_feedback_step 1 paramsO2 0 ⟨0, 0, 0⟩ ⟨0x0100, [0, 1, 0, 2], false⟩ =
      { pos := unscale_u16_to_float (0 * 256 + 1) paramsO2.P_MIN paramsO2.P_MAX,
        vel := unscale_u16_to_float (0 * 256 + 2) paramsO2.V_MIN paramsO2.V_MAX,
        last_update := 0 } := by
  exact (C3_feedback_parse 1 paramsO2 0 ⟨0, 0, 0⟩
    ⟨0x0100, [0, 1, 0, 2], false⟩).2.2.1 rfl (by decide) 0 1 0 2 [] rfl

/-- C10: given a non-error frame whose identity matches, the state
update is atomic: either the payload is long enough, both fields decode,
and position, velocity and the timestamp are all rewritten together, or
nothing at all is modified; a payload shorter than 4 bytes never causes
a partial update. -/
theorem C10_atomic_feedback_update (expected : ℕ) (params : MotorParams)
    (now : ℚ) (st : MotorState) (msg : CanMsg)
    (herr : msg.is_error_frame = false)
    (hid : extract_motor_id expected msg.arbitration_id = expected) :
    (msg.data.length < 4 → read_feedback_step expected params now st msg = st) ∧
    (read_feedback_step expected params now st msg = st ∨
      ∃ p_raw v_raw,
        unpackBE16 (msg.data.take 2) = some p_raw ∧
        unpackBE16 ((msg.data.drop 2).take 2) = some v_raw ∧
        read_feedback_step expected params now st msg =
          { pos := unscale_u16_to_float p_raw params.P_MIN params.P_MAX,
            vel := unscale_u16_to_float v_raw params.V_MIN params.V_MAX,
            last_update := now }) := by
  constructor
  · intro hlen
    have hnone : unpackBE16 ((msg.data.drop 2).take 2) = none := by
      apply unpackBE16_eq_none
      simp only [List.length_take, List.length_drop]
      omega
    rcases h1 : unpackBE16 (msg.data.take 2) with _ | p <;>
      simp [read_feedback_step, herr, hid, hnone, h1]
  · rcases h1 : unpackBE16 (msg.data.take 2) with _ | p
    · left
      simp [read_feedback_step, herr, hid, h1]
    · rcases h2 : unpackBE16 ((msg.data.drop 2).take 2) with _ | q
      · left
        simp [read_feedback_step, herr, hid, h1, h2]
      · right
        refine ⟨p, q, rfl, rfl, ?_⟩
        simp [read_feedback_step, herr, hid, h1, h2]

/-- C10 witness: matching identity, 1-byte payload, state unchanged. -/
theorem C10_atomic_feedback_update_witness :
    read_feedback_step 1 paramsO2 0 ⟨0, 0, 0⟩ ⟨0x0100, [7], false⟩ =
      ⟨0, 0, 0⟩ :=
  (C10_atomic_feedback_update 1 paramsO2 0 ⟨0, 0, 0⟩ ⟨0x0100, [7], false⟩
    rfl (by decide)).1 (by decide)

theorem safe_read_param_aux_succ (prim : ℕ → PrimResult) (a n : ℕ) :
    safe_read_param_aux prim a (n + 1) =
      match prim a with
      | PrimResult.ok v => (some v, 0)
      | PrimResult.err =>
          let r := safe_read_param_aux prim (a + 1) n
          (r.1, r.2 + 1) := rfl

theorem safe_read_param_aux_all_err (prim : ℕ → PrimResult)
    (hprim : ∀ i, prim i = PrimResult.err) :
    ∀ n a, safe_read_param_aux prim a n = (none, n) := by
  intro n
  induction n with
  | zero => intro a; rfl
  | succ n ih =>
      intro a
      rw [safe_read_param_aux_succ, hprim a]
      show ((safe_read_param_aux prim (a + 1) n).1,
        (safe_read_param_aux prim (a + 1) n).2 + 1) = (none, n + 1)
      rw [ih (a + 1)]

theorem safe_write_param_aux_succ (prim : ℕ → PrimResult) (a n : ℕ) :
    safe_write_param_aux prim a (n + 1) =
      match prim a with
      | PrimResult.ok _ => (true, 0)
      | PrimResult.err =>
          let r := safe_write_param_aux prim (a + 1) n
          (r.1, r.2 + 1) := rfl

theorem safe_write_param_aux_all_err (prim : ℕ → PrimResult)
    (hprim : ∀ i, prim i = PrimResult.err) :
    ∀ n a, safe_write_param_aux prim a n = (false, n) := by
  intro n
  induction n with
  | zero => intro a; rfl
  | succ n ih =>
      intro a
      rw [safe_write_param_aux_succ, hprim a]
      show ((safe_write_param_aux prim (a + 1) n).1,
        (safe_write_param_aux prim (a + 1) n).2 + 1) = (false, n + 1)
      rw [ih (a + 1)]

/-- C4: with retries = 3, a read primitive failing twice then
succeeding makes safe_read_param return the successful value having
reported exactly 2 failed attempts; an always-failing primitive makes
safe_read_param return None having reported exactly 3 failed attempts,
and safe_write_param return failure likewise; both wrappers are total
functions of the primitive, so no exception of the primitive escapes
the call boundary. -/
theorem C4_param_retry (prim : ℕ → PrimResult) (v : ℚ)
    (h0 : prim 0 = PrimResult.err) (h1 : prim 1 = PrimResult.err)
    (h2 : prim 2 = PrimResult.ok v) :
    safe_read_param prim 3 = (some v, 2) ∧
    (∀ q : ℕ → PrimResult, (∀ i, q i = PrimResult.err) →
      safe_read_param q 3 = (none, 3)) ∧
    (∀ q : ℕ → PrimResult, (∀ i, q i = PrimResult.err) →
      safe_write_param q 3 = (false, 3)) := by
  refine ⟨?_, ?_, ?_⟩
  · have s2 : safe_read_param_aux prim 2 1 = (some v, 0) := by
      rw [show (1 : ℕ) = 0 + 1 from rfl, safe_read_param_aux_succ, h2]
    have s1 : safe_read_param_aux prim 1 2 = (some v, 1) := by
      rw [show (2 : ℕ) = 1 + 1 from rfl, safe_read_param_aux_succ, h1]
      show ((safe_read_param_aux prim 2 1).1,
        (safe_read_param_aux prim 2 1).2 + 1) = (some v, 1)
      rw [s2]
    show safe_read_param_aux prim 0 3 = (some v, 2)
    rw [show (3 : ℕ) = 2 + 1 from rfl, safe_read_param_aux_succ, h0]
    show ((safe_read_param_aux prim 1 2).1,
      (safe_read_param_aux prim 1 2).2 + 1) = (some v, 2)
    rw [s1]
  · intro q hq
    exact safe_read_param_aux_all_err q hq 3 0
  · intro q hq
    exact safe_write_param_aux_all_err q hq 3 0

/-- C4 witness: a primitive failing on attempts 0 and 1, succeeding on
attempt 2 with value 7. -/
theorem C4_param_retry_witness :
    safe_read_param (fun i => if i < 2 then PrimResult.err else PrimResult.ok 7) 3 =
      (some 7, 2) :=
  (C4_param_retry (fun i => if i < 2 then PrimResult.err else PrimResult.ok 7) 7
    rfl rfl rfl).1

theorem flush_bus_drains (t : ℚ) (queue : List CanMsg) :
    (flush_bus t queue).2 = [] := by
  induction queue with
  | nil => rfl
  | cons m rest ih => simp [flush_bus, ih]

theorem flush_bus_timeouts (t : ℚ) (queue : List CanMsg) :
    ∀ s ∈ (flush_bus t queue).1, s = t := by
  induction queue with
  | nil =>
      intro s hs
      simpa [flush_bus] using hs
  | cons m rest ih =>
      intro s hs
      simp only [flush_bus, List.mem_cons] at hs
      rcases hs with h | h
      · exact h
      · exact ih s h

theorem param_attempt_events_succ (ok : ℕ → Bool) (a n : ℕ) :
    param_attempt_events ok a (n + 1) =
      ParamEvent.flushEv :: ParamEvent.attemptEv a ::
        (if ok a then [] else param_attempt_events ok (a + 1) n) := rfl

theorem attempts_flushed_cons (i : ℕ) (rest : List ParamEvent) :
    attempts_flushed (ParamEvent.flushEv :: ParamEvent.attemptEv i :: rest) =
      attempts_flushed rest := rfl

theorem attempts_flushed_param_events (ok : ℕ → Bool) :
    ∀ n a, attempts_flushed (param_attempt_events ok a n) = true := by
  intro n
  induction n with
  | zero => intro a; rfl
  | succ n ih =>
      intro a
      rw [param_attempt_events_succ, attempts_flushed_cons]
      by_cases h : ok a
      · rw [if_pos h]; rfl
      · rw [if_neg h]; exact ih (a + 1)

/-- C5 counterexample: the flush of the param channel in findangles.py
passes timeout 0.01 to bus.recv, not 0; already its very first receive
call (here on an empty queue) uses a nonzero timeout. -/
theorem C5_counterexample_flush_timeout :
    ¬ ∀ s ∈ (flush_bus FLUSH_TIMEOUT_FINDANGLES ([] : List CanMsg)).1, s = 0 := by
  intro hall
  have h := hall FLUSH_TIMEOUT_FINDANGLES (by simp [flush_bus])
  norm_num [FLUSH_TIMEOUT_FINDANGLES] at h

/-- C5 amended: before every read or write attempt the param channel
flushes, and each flush drains the whole queue; every receive call of
the flush uses the fixed per-call timeout of its script, which is
0.01 s in findangles.py and 0 in findmotorid.py and setpermzeros.py. -/
theorem C5_amended_flush_discipline (queue : List CanMsg) (ok : ℕ → Bool)
    (a n : ℕ) :
    (flush_bus FLUSH_TIMEOUT_FINDANGLES queue).2 = [] ∧
    (∀ s ∈ (flush_bus FLUSH_TIMEOUT_FINDANGLES queue).1, s = 1 / 100) ∧
    (flush_bus FLUSH_TIMEOUT_FINDMOTORID queue).2 = [] ∧
    (∀ s ∈ (flush_bus FLUSH_TIMEOUT_FINDMOTORID queue).1, s = 0) ∧
    (flush_bus FLUSH_TIMEOUT_SETPERMZEROS queue).2 = [] ∧
    (∀ s ∈ (flush_bus FLUSH_TIMEOUT_SETPERMZEROS queue).1, s = 0) ∧
    attempts_flushed (param_attempt_events ok a n) = true := by
  refine ⟨flush_bus_drains _ queue, ?_, flush_bus_drains _ queue, ?_,
    flush_bus_drains _ queue, ?_, attempts_flushed_param_events ok n a⟩
  · intro s hs
    rw [flush_bus_timeouts _ queue s hs]
    norm_num [FLUSH_TIMEOUT_FINDANGLES]
  · intro s hs
    rw [flush_bus_timeouts _ queue s hs]
    rfl
  · intro s hs
    rw [flush_bus_timeouts _ queue s hs]
    rfl

theorem control_loop_body_mem (fault_at : Option ℕ) :
    ∀ n tick a, a ∈ control_loop_body fault_at tick n →
      ∃ k, a = BusAction.sendControl k := by
  intro n
  induction n with
  | zero =>
      intro tick a ha
      simp [control_loop_body] at ha
  | succ n ih =>
      intro tick a ha
      rw [show control_loop_body fault_at tick (n + 1) =
          (if fault_at = some tick then []
           else BusAction.sendControl tick ::
             control_loop_body fault_at (tick + 1) n) from rfl] at ha
      by_cases hf : fault_at = some tick
      · rw [if_pos hf] at ha
        simp at ha
      · rw [if_neg hf] at ha
        rcases List.mem_cons.mp ha with h | h
        · exact ⟨tick, h⟩
        · exact ih (tick + 1) a h

/-- C6: on every exit path of the control loop (normal exhaustion of
the run, operator cancellation after any number of ticks, or a bus
send fault at any tick), the finally block sends exactly one disable
frame and the bus handle is shut down afterwards, as the last action. -/
theorem C6_disable_and_release (cancel_budget : ℕ) (fault_at : Option ℕ) :
    (control_main cancel_budget fault_at).count BusAction.sendDisable = 1 ∧
    (control_main cancel_budget fault_at).count BusAction.shutdown = 1 ∧
    (∃ pre, control_main cancel_budget fault_at =
      pre ++ [BusAction.sendDisable, BusAction.settle, BusAction.shutdown]) := by
  have hbody : ∀ x : BusAction, (∀ k, x ≠ BusAction.sendControl k) →
      (control_loop_body fault_at 0 cancel_budget).count x = 0 := by
    intro x hx
    rw [List.count_eq_zero]
    intro hmem
    rcases control_loop_body_mem fault_at cancel_budget 0 x hmem with ⟨k, hk⟩
    exact hx k hk
  refine ⟨?_, ?_, ⟨BusAction.sendEnable :: BusAction.settle ::
      control_loop_body fault_at 0 cancel_budget, by simp [control_main]⟩⟩
  · simp [control_main, List.count_append, List.count_cons,
      hbody BusAction.sendDisable (fun k h => BusAction.noConfusion h)]
  · simp [control_main, List.count_append, List.count_cons,
      hbody BusAction.shutdown (fun k h => BusAction.noConfusion h)]

end Robstride
